import Mathlib

/-!
Verification of the verifier-data resolution engine of
`src/endpoints/crosschain/ethereum/text_records.rs`.

Field elements are modelled as natural numbers (values of Starknet field
elements, which print in decimal via `Display`).  Fallible Rust code is
modelled with `Except`/`Option`; a Rust panic is modelled as the `none`
case of an `Option`-typed result so that aborting executions are
distinguishable from both absence and success.
-/

/-- Starknet field elements, modelled by their numeric value. -/
abbrev F := Nat

/-- Outcome of the single chain RPC `provider.call` (transport/execution
error, or a flat numeric result buffer). -/
inductive CallResult where
  | err
  | ok (buffer : List F)
deriving DecidableEq

/-- A JSON value, used to model the bodies returned by the social APIs. -/
inductive Json where
  | null
  | bool (b : Bool)
  | str (s : String)
  | num (n : Int)
  | arr (elems : List Json)
  | obj (entries : List (String × Json))

/-- Field lookup `Value::get(key)` of serde_json: field lookup on an object, `none` on
any other value or a missing key. -/
def Json.get : Json → String → Option Json
  | .obj entries, key => (entries.find? (fun e => e.1 = key)).map (fun e => e.2)
  | _, _ => none

/-- String extraction `Value::as_str` of serde_json. -/
def Json.asStr : Json → Option String
  | .str s => some s
  | _ => none

/-- The HTTP response an outbound social-API request would observe:
a transport error, or a status code together with the body parsed as
JSON (`none` when the body is unreadable or not valid JSON). -/
inductive HttpResponse where
  | transport_error
  | response (status : Nat) (body : Option Json)

/-- Result of one handler invocation.  `panicked` models a Rust panic
(`unwrap` on an `Err`), distinct from returning an error value. -/
inductive HandlerOutcome where
  | panicked
  | err (msg : String)
  | ok (name : String)
deriving DecidableEq

/-- Enumeration `HandlerType` of `text_records.rs`. -/
inductive HandlerType where
  | Static
  | GetDiscordName
  | GetGithubName
  | GetTwitterName
deriving DecidableEq

/-- Configuration `EvmRecordVerifier` as used by `text_records.rs`:
an ordered verifier-contract list, the record field name, and the
handler kind. -/
structure EvmRecordVerifier where
  verifier_contracts : List F
  field : String
  handler : HandlerType
deriving DecidableEq

/-- Modelled from the spec: `cairo_short_string_to_felt` (starknet
library, not in `src/`).  Packs a bounded-length ASCII string into one
field element, big-endian byte packing; fails on non-ASCII bytes or on
more than 31 bytes. -/
def cairo_short_string_to_felt (s : String) : Except String F :=
  if s.data.any (fun c => 128 ≤ c.toNat) then .error "NonAsciiCharacter"
  else if 31 < s.length then .error "StringTooLong"
  else .ok (s.data.foldl (fun acc c => acc * 256 + c.toNat) 0)

/-- Big-endian base-256 digit extraction, fuelled for structural
recursion (the fuel is never exhausted when it starts at the number
itself). -/
def natToBytesAux : Nat → Nat → List Nat
  | 0, _ => []
  | fuel + 1, n =>
    if n = 0 then [] else natToBytesAux fuel (n / 256) ++ [n % 256]

/-- Big-endian base-256 digits of a natural number (no leading zeros). -/
def natToBytes (n : Nat) : List Nat := natToBytesAux n n

/-- Modelled from the spec: `parse_cairo_short_string` (starknet
library, not in `src/`).  Decodes a field element back to the ASCII
string it packs, dropping the zero padding; fails on values too large
to be a packed 31-byte short string. -/
def parse_cairo_short_string (n : F) : Except String String :=
  if n < 256 ^ 31 then .ok (String.mk ((natToBytes n).map Char.ofNat))
  else .error "ValueOutOfRange"

/-- Handler `get_discord_name`: authenticated GET, then deserialize the body as
`DiscordUser { username }`.  The status code is never inspected. -/
def get_discord_name (net : HttpResponse) (_id : F) : HandlerOutcome :=
  match net with
  | .transport_error => .err "transport error"
  | .response _status body =>
    match body with
    | none => .err "Failed to parse JSON response from Discord API"
    | some j =>
      match j.get "username" with
      | some (.str u) => .ok u
      | _ => .err "Failed to parse JSON response from Discord API"

/-- Handler `get_github_name`: GET with a user-agent, require status 200, then
deserialize the body as `GithubUser { login }`. -/
def get_github_name (net : HttpResponse) (_id : F) : HandlerOutcome :=
  match net with
  | .transport_error => .err "Failed to send request to GitHub"
  | .response status body =>
    if status ≠ 200 then .err "GitHub API returned non-OK status"
    else
      match body with
      | none => .err "Failed to deserialize GitHub response"
      | some j =>
        match j.get "login" with
        | some (.str l) => .ok l
        | _ => .err "Failed to deserialize GitHub response"

/-- Handler `get_twitter_name`: GET with API key headers, require status 200,
parse the body as JSON, then walk
`data.user_result.result.legacy.screen_name`.  The source builds an
`Err` via `ok_or_else` when the path is missing and then calls
`.unwrap()` on it (line 118), which panics instead of returning the
error. -/
def get_twitter_name (net : HttpResponse) (_id : F) : HandlerOutcome :=
  match net with
  | .transport_error => .err "transport error"
  | .response status body =>
    if status ≠ 200 then .err "Twitter API returned non-OK status"
    else
      match body with
      | none => .err "JSON parse error"
      | some j =>
        match (((((j.get "data").bind (fun d => d.get "user_result")).bind
            (fun u => u.get "result")).bind
            (fun r => r.get "legacy")).bind
            (fun l => l.get "screen_name")).bind Json.asStr with
        | some name => .ok name
        | none => .panicked

/-- Dispatcher `EvmRecordVerifier::execute_handler`: dispatch on the handler kind.
The second component counts outbound network requests performed. -/
def execute_handler (h : HandlerType) (net : HttpResponse) (id : F) :
    HandlerOutcome × Nat :=
  match h with
  | .Static => (.ok (Nat.repr id), 0)
  | .GetDiscordName => (get_discord_name net id, 1)
  | .GetGithubName => (get_github_name net id, 1)
  | .GetTwitterName => (get_twitter_name net id, 1)

/-- The pair scan of `find_social_id`: walk non-overlapping 2-element
chunks, return the second element of the first chunk whose second
element is non-zero; a trailing singleton chunk never matches. -/
def find_social_id_aux : List F → F
  | _first :: second :: rest =>
    if second ≠ 0 then second else find_social_id_aux rest
  | _ => 0

/-- Decoder `find_social_id`: `&result[2..]` panics (`none`) when the buffer has
fewer than 2 elements; otherwise scan the remainder in pairs. -/
def find_social_id (result : List F) : Option F :=
  if 2 ≤ result.length then some (find_social_id_aux (result.drop 2))
  else none

/-- Flatten a list of `(status, value)` pairs into a result buffer. -/
def pairsFlat : List (F × F) → List F
  | [] => []
  | (a, b) :: t => a :: b :: pairsFlat t

/-- The calldata-building loop of `get_verifier_data` (lines 129-137):
for each verifier, push the 7-element group onto the accumulator.  The
short-string conversion of the field is `.unwrap()`ed inside the loop
body, so a failing conversion panics (`none`) on the first iteration
and is never reached when the verifier list is empty. -/
def build_calls (reg sel id : F) (fieldEnc : Except String F) :
    List F → List F → Option (List F)
  | acc, [] => some acc
  | acc, v :: rest =>
    match fieldEnc with
    | .error _ => none
    | .ok f => build_calls reg sel id fieldEnc
        (acc ++ [reg, sel, 4, id, f, v, 0]) rest

/-- The full calldata built by `get_verifier_data` (line 128 onwards):
the verifier count followed by the per-verifier groups; `none` when the
field-name conversion panics. -/
def get_verifier_data_calls (reg sel id : F) (rc : EvmRecordVerifier) :
    Option (List F) :=
  build_calls reg sel id (cairo_short_string_to_felt rc.field)
    [rc.verifier_contracts.length] rc.verifier_contracts

/-- The flat per-verifier group layout stated by the spec: for each
verifier in order, {registry address, selector, 4, id, encoded field,
verifier address, 0}. -/
def call_groups (reg sel id f : F) : List F → List F
  | [] => []
  | v :: rest => reg :: sel :: 4 :: id :: f :: v :: 0 :: call_groups reg sel id f rest

/-- Observable behaviour of one `get_verifier_data` run:
whether the aggregated RPC call was issued, which social ids were
handed to `execute_handler`, and the outcome (`none` models a panic
escaping the function; `some Option.none` is absence; `some (some s)`
is a resolved name). -/
structure GvdTrace where
  rpc_issued : Bool
  handler_ids : List F
  result : Option (Option String)
deriving DecidableEq

/-- Orchestration `get_verifier_data` (lines 122-170): build the aggregated calldata,
issue the multicall, decode the buffer with `find_social_id`,
short-circuit on a zero social id, otherwise dispatch to
`execute_handler`; handler errors and RPC errors are logged and folded
to absence.  `outcome` is the RPC result the call would observe and
`net` the HTTP response the handler's request would observe. -/
def get_verifier_data (reg sel id : F) (rc : EvmRecordVerifier)
    (outcome : CallResult) (net : HttpResponse) : GvdTrace :=
  match get_verifier_data_calls reg sel id rc with
  | none => ⟨false, [], none⟩
  | some _calls =>
    match outcome with
    | .err => ⟨true, [], some Option.none⟩
    | .ok buffer =>
      match find_social_id buffer with
      | none => ⟨true, [], none⟩
      | some social_id =>
        if social_id = 0 then ⟨true, [], some Option.none⟩
        else
          match (execute_handler rc.handler net social_id).1 with
          | .panicked => ⟨true, [social_id], none⟩
          | .err _ => ⟨true, [social_id], some Option.none⟩
          | .ok name => ⟨true, [social_id], some (some name)⟩

/-- Reader `get_unbounded_user_data` (lines 187-225): encode the field name
(`.unwrap()`, panics on failure), issue the direct call, treat a zero
presence flag as absence, and otherwise join every remaining buffer
element that decodes as a short string, silently skipping the rest.
The unconditional `result[0]` panics (`none`) on an empty buffer. -/
def get_unbounded_user_data (field : String) (outcome : CallResult) :
    Option (Option String) :=
  match cairo_short_string_to_felt field with
  | .error _ => none
  | .ok _f =>
    match outcome with
    | .err => some Option.none
    | .ok result =>
      match result with
      | [] => none
      | flag :: rest =>
        if flag = 0 then some Option.none
        else some (some (String.join
          (rest.filterMap (fun v => (parse_cairo_short_string v).toOption))))

/-! ## Helper lemmas -/

lemma find_social_id_cons2 (h1 h2 : F) (l : List F) :
    find_social_id (h1 :: h2 :: l) = some (find_social_id_aux l) := by
  simp [find_social_id]

lemma find_social_id_aux_pairs_first (ps : List (F × F)) (k : Nat)
    (hk : k < ps.length) (hnz : (ps.getD k (0, 0)).2 ≠ 0)
    (hz : ∀ j, j < k → (ps.getD j (0, 0)).2 = 0) :
    find_social_id_aux (pairsFlat ps) = (ps.getD k (0, 0)).2 := by
  induction ps generalizing k with
  | nil => simp at hk
  | cons p t ih =>
    obtain ⟨a, b⟩ := p
    cases k with
    | zero =>
      simp only [List.getD_cons_zero] at hnz ⊢
      simp [pairsFlat, find_social_id_aux, hnz]
    | succ k' =>
      have hb : b = 0 := by simpa using hz 0 (Nat.succ_pos k')
      simp only [List.getD_cons_succ] at hnz ⊢
      simp only [pairsFlat, find_social_id_aux, hb, ne_eq, not_true_eq_false,
        if_false]
      exact ih k' (by simpa using hk) hnz
        (fun j hj => by simpa using hz (j + 1) (Nat.succ_lt_succ hj))

lemma find_social_id_aux_pairs_zero (ps : List (F × F))
    (h : ∀ p ∈ ps, p.2 = 0) :
    find_social_id_aux (pairsFlat ps) = 0 := by
  induction ps with
  | nil => rfl
  | cons p t ih =>
    obtain ⟨a, b⟩ := p
    have hb : b = 0 := h (a, b) (by simp)
    simp only [pairsFlat, find_social_id_aux, hb, ne_eq, not_true_eq_false,
      if_false]
    exact ih (fun q hq => h q (by simp [hq]))

lemma natToBytesAux_zero (k : Nat) : natToBytesAux k 0 = [] := by
  cases k <;> simp [natToBytesAux]

lemma natToBytesAux_succ (k n : Nat) (hn : n ≠ 0) :
    natToBytesAux (k + 1) n = natToBytesAux k (n / 256) ++ [n % 256] := by
  simp [natToBytesAux, hn]

lemma natToBytesAux_fuel :
    ∀ fuel fuel' n, n ≤ fuel → n ≤ fuel' →
      natToBytesAux fuel n = natToBytesAux fuel' n := by
  intro fuel
  induction fuel with
  | zero =>
    intro fuel' n h h'
    have hn : n = 0 := by omega
    subst hn
    rw [natToBytesAux_zero, natToBytesAux_zero]
  | succ k ih =>
    intro fuel' n h h'
    by_cases h0 : n = 0
    · subst h0
      rw [natToBytesAux_zero, natToBytesAux_zero]
    · obtain ⟨k', rfl⟩ : ∃ k', fuel' = k' + 1 := ⟨fuel' - 1, by omega⟩
      rw [natToBytesAux_succ k n h0, natToBytesAux_succ k' n h0]
      congr 1
      exact ih k' (n / 256) (by omega) (by omega)

lemma natToBytes_small (b : Nat) (h1 : b ≠ 0) (h2 : b < 256) :
    natToBytes b = [b] := by
  unfold natToBytes
  obtain ⟨k, rfl⟩ : ∃ k, b = k + 1 := ⟨b - 1, by omega⟩
  rw [natToBytesAux_succ k (k + 1) (by omega), Nat.div_eq_of_lt h2,
    natToBytesAux_zero, Nat.mod_eq_of_lt h2]
  rfl

lemma natToBytes_step (m b : Nat) (hb : b < 256) (h : m * 256 + b ≠ 0) :
    natToBytes (m * 256 + b) = natToBytes m ++ [b] := by
  unfold natToBytes
  obtain ⟨k, hk⟩ : ∃ k, m * 256 + b = k + 1 := ⟨m * 256 + b - 1, by omega⟩
  rw [hk, natToBytesAux_succ k (k + 1) (by omega)]
  have hdiv : (k + 1) / 256 = m := by omega
  have hmod : (k + 1) % 256 = b := by omega
  rw [hdiv, hmod]
  congr 1
  exact natToBytesAux_fuel k m m (by omega) (le_refl m)

lemma natToBytes_foldl (bs : List Nat) (hbs : ∀ b ∈ bs, b < 256) :
    ∀ acc, acc ≠ 0 →
      natToBytes (bs.foldl (fun a b => a * 256 + b) acc) =
        natToBytes acc ++ bs := by
  induction bs with
  | nil => intro acc _; simp
  | cons b t ih =>
    intro acc hacc
    have hb : b < 256 := hbs b (by simp)
    simp only [List.foldl_cons]
    rw [ih (fun x hx => hbs x (by simp [hx])) (acc * 256 + b) (by omega),
      natToBytes_step acc b hb (by omega)]
    simp

lemma foldl_bound (bs : List Nat) (hbs : ∀ b ∈ bs, b < 256) :
    ∀ acc, bs.foldl (fun a b => a * 256 + b) acc <
      (acc + 1) * 256 ^ bs.length := by
  induction bs with
  | nil => intro acc; simp
  | cons b t ih =>
    intro acc
    have hb : b < 256 := hbs b (by simp)
    simp only [List.foldl_cons, List.length_cons]
    calc t.foldl (fun a b => a * 256 + b) (acc * 256 + b)
        < (acc * 256 + b + 1) * 256 ^ t.length :=
          ih (fun x hx => hbs x (by simp [hx])) (acc * 256 + b)
      _ ≤ ((acc + 1) * 256) * 256 ^ t.length :=
          Nat.mul_le_mul_right _ (by omega)
      _ = (acc + 1) * 256 ^ (t.length + 1) := by ring

lemma build_calls_ok (reg sel id f : F) (vs : List F) :
    ∀ acc, build_calls reg sel id (.ok f) acc vs =
      some (acc ++ call_groups reg sel id f vs) := by
  induction vs with
  | nil => intro acc; simp [build_calls, call_groups]
  | cons v rest ih =>
    intro acc
    simp only [build_calls, call_groups]
    rw [ih]
    simp

lemma call_groups_length (reg sel id f : F) (vs : List F) :
    (call_groups reg sel id f vs).length = 7 * vs.length := by
  induction vs with
  | nil => rfl
  | cons v rest ih =>
    simp only [call_groups, List.length_cons, ih]
    ring

lemma get_verifier_data_calls_ok (reg sel id : F) (rc : EvmRecordVerifier)
    (f : F) (hf : cairo_short_string_to_felt rc.field = .ok f) :
    get_verifier_data_calls reg sel id rc =
      some ((rc.verifier_contracts.length : F) ::
        call_groups reg sel id f rc.verifier_contracts) := by
  unfold get_verifier_data_calls
  rw [hf, build_calls_ok]
  rfl

/-! ## Claims -/

/-- C2: for a result buffer of 2 header elements followed by pairs, if
position `k` holds the earliest pair with a non-zero value (which covers
both the exactly-one case and the multiple-non-zero first-wins case),
`find_social_id` returns that value; if no pair has a non-zero value it
returns zero. -/
theorem c2_find_social_id_first_wins :
    (∀ (h1 h2 : F) (ps : List (F × F)) (k : Nat), k < ps.length →
      (ps.getD k (0, 0)).2 ≠ 0 →
      (∀ j, j < k → (ps.getD j (0, 0)).2 = 0) →
      find_social_id (h1 :: h2 :: pairsFlat ps) = some (ps.getD k (0, 0)).2) ∧
    (∀ (h1 h2 : F) (ps : List (F × F)), (∀ p ∈ ps, p.2 = 0) →
      find_social_id (h1 :: h2 :: pairsFlat ps) = some 0) := by
  constructor
  · intro h1 h2 ps k hk hnz hz
    rw [find_social_id_cons2, find_social_id_aux_pairs_first ps k hk hnz hz]
  · intro h1 h2 ps h
    rw [find_social_id_cons2, find_social_id_aux_pairs_zero ps h]

theorem c2_witness :
    find_social_id (9 :: 9 :: pairsFlat [(1, 0), (1, 5), (1, 7)]) = some 5 ∧
    find_social_id (3 :: 3 :: pairsFlat [(3, 0)]) = some 0 := by
  constructor
  · simpa using c2_find_social_id_first_wins.1 9 9 [(1, 0), (1, 5), (1, 7)] 1
      (by decide) (by decide)
      (fun j hj => by interval_cases j; decide)
  · exact c2_find_social_id_first_wins.2 3 3 [(3, 0)] (by decide)

/-- C3 counterexample: the claim says every buffer shorter than 4
elements (including lengths 0 and 1) yields zero without failing, but
`&result[2..]` panics (modelled `none`) on buffers of length 0 or 1. -/
theorem c3_short_buffer_panics :
    find_social_id [] = none ∧ find_social_id [1] = none ∧
    find_social_id [] ≠ some 0 := by decide

/-- C3 amended: for every result buffer of length 2 or 3,
`find_social_id` returns zero without failing; buffers of length 0 or 1
instead panic on the out-of-range slice `&result[2..]`. -/
theorem c3_amended_short_buffer :
    ∀ buf : List F, buf.length = 2 ∨ buf.length = 3 →
      find_social_id buf = some 0 := by
  intro buf h
  rcases buf with _ | ⟨a, buf⟩
  · simp at h
  rcases buf with _ | ⟨b, buf⟩
  · simp at h
  rcases buf with _ | ⟨c, buf⟩
  · rfl
  rcases buf with _ | ⟨d, buf⟩
  · rfl
  · exfalso
    simp only [List.length_cons, or_iff_not_imp_left] at h
    omega

theorem c3_witness : find_social_id [5, 6] = some 0 :=
  c3_amended_short_buffer [5, 6] (Or.inl rfl)

/-- C4: when the field name encodes as a short string, the calldata
built by `get_verifier_data` is the verifier count `N` followed by, per
verifier in list order, the 7-element group {registry address, selector
of get_verifier_data, 4, id, encoded field, verifier address, 0}; its
total length is `1 + 7 * N`. -/
theorem c4_calldata_shape :
    ∀ (reg sel id : F) (rc : EvmRecordVerifier) (f : F),
      cairo_short_string_to_felt rc.field = .ok f →
      get_verifier_data_calls reg sel id rc =
        some ((rc.verifier_contracts.length : F) ::
          call_groups reg sel id f rc.verifier_contracts) ∧
      ((rc.verifier_contracts.length : F) ::
          call_groups reg sel id f rc.verifier_contracts).length =
        1 + 7 * rc.verifier_contracts.length := by
  intro reg sel id rc f hf
  refine ⟨get_verifier_data_calls_ok reg sel id rc f hf, ?_⟩
  simp [call_groups_length]
  ring

theorem c4_witness :
    get_verifier_data_calls 1 2 42 ⟨[11, 12], "twitter", .GetTwitterName⟩ =
      some [2, 1, 2, 4, 42, 32782392107492722, 11, 0,
        1, 2, 4, 42, 32782392107492722, 12, 0] := by
  have h := (c4_calldata_shape 1 2 42 ⟨[11, 12], "twitter", .GetTwitterName⟩
    32782392107492722 (by rfl)).1
  rw [h]
  rfl

/-- C5: on a successful aggregated call whose decoded social id is
zero, `get_verifier_data` returns absence with `execute_handler` never
invoked (empty handler trace), for every network response; and every
social id `get_verifier_data` ever hands to `execute_handler` is
non-zero. -/
theorem c5_zero_social_id_short_circuits :
    (∀ (reg sel id : F) (rc : EvmRecordVerifier) (f : F)
        (buffer : List F) (net : HttpResponse),
      cairo_short_string_to_felt rc.field = .ok f →
      find_social_id buffer = some 0 →
      get_verifier_data reg sel id rc (.ok buffer) net =
        ⟨true, [], some Option.none⟩) ∧
    (∀ (reg sel id : F) (rc : EvmRecordVerifier) (outcome : CallResult)
        (net : HttpResponse) (sid : F),
      sid ∈ (get_verifier_data reg sel id rc outcome net).handler_ids →
      sid ≠ 0) := by
  constructor
  · intro reg sel id rc f buffer net hf hfind
    simp [get_verifier_data, get_verifier_data_calls_ok reg sel id rc f hf,
      hfind]
  · intro reg sel id rc outcome net sid hmem
    unfold get_verifier_data at hmem
    repeat' split at hmem
    all_goals simp_all

theorem c5_witness :
    get_verifier_data 1 2 42 ⟨[11], "twitter", .GetTwitterName⟩
      (.ok [0, 0, 7, 0]) .transport_error = ⟨true, [], some Option.none⟩ ∧
    (777 : F) ≠ 0 := by
  constructor
  · exact c5_zero_social_id_short_circuits.1 1 2 42
      ⟨[11], "twitter", .GetTwitterName⟩ 32782392107492722 [0, 0, 7, 0]
      .transport_error (by rfl) (by rfl)
  · exact c5_zero_social_id_short_circuits.2 1 2 42
      ⟨[11], "twitter", .GetTwitterName⟩ (.ok [0, 0, 1, 777])
      (.response 200 (some (.obj []))) 777 (by decide)

/-- C1: the claim says every missing-field outcome makes the handler
return an error value and `get_verifier_data` return absence; but
`get_twitter_name` on an OK (200) response whose JSON body lacks the
`data.user_result.result.legacy.screen_name` path panics (the source
`.unwrap()`s the `Err` built by `ok_or_else`, line 118), and the panic
escapes `get_verifier_data` instead of folding to absence. -/
theorem c1_twitter_missing_field_panics :
    execute_handler .GetTwitterName (.response 200 (some (.obj []))) 777 =
      (.panicked, 1) ∧
    get_verifier_data 1 2 42 ⟨[11], "twitter", .GetTwitterName⟩
      (.ok [0, 0, 1, 777]) (.response 200 (some (.obj []))) =
      ⟨true, [777], none⟩ := by
  exact ⟨rfl, rfl⟩

/-- C6 counterexample: with an unencodable field name but an empty
verifier list, the loop never reaches the `.unwrap()`, so
`get_verifier_data` does not hard-fail and still issues the aggregated
call (`rpc_issued = true`); and with an encodable field, the operation
can still abort through the Twitter handler panic, so the encoding
error is not the only aborting failure mode. -/
theorem c6_counterexample :
    (∃ e, cairo_short_string_to_felt
      "this-string-is-way-too-long-to-pack-1234" = .error e) ∧
    get_verifier_data 1 2 42
      ⟨[], "this-string-is-way-too-long-to-pack-1234", .Static⟩
      .err .transport_error = ⟨true, [], some Option.none⟩ ∧
    get_verifier_data 1 2 42 ⟨[11], "twitter", .GetTwitterName⟩
      (.ok [5, 5, 1, 99]) (.response 200 (some (.obj []))) =
      ⟨true, [99], none⟩ := by
  exact ⟨⟨"StringTooLong", rfl⟩, rfl, rfl⟩

/-- C6 amended: for every unencodable field name and every NON-EMPTY
verifier list, `get_verifier_data` hard-fails (panics on the first loop
iteration) with the aggregated call never issued and no handler
invoked, independently of the network; and when the field encodes,
provided the aggregated buffer has the 2-element header and the
dispatched handler does not hit the Twitter panic slip, no other
failure aborts the operation — it always produces a value or absence. -/
theorem c6_amended_encoding_abort :
    (∀ (reg sel id : F) (rc : EvmRecordVerifier) (e : String)
        (outcome : CallResult) (net : HttpResponse),
      rc.verifier_contracts ≠ [] →
      cairo_short_string_to_felt rc.field = .error e →
      get_verifier_data reg sel id rc outcome net = ⟨false, [], none⟩) ∧
    (∀ (reg sel id : F) (rc : EvmRecordVerifier) (f : F)
        (outcome : CallResult) (net : HttpResponse),
      cairo_short_string_to_felt rc.field = .ok f →
      (∀ buf, outcome = .ok buf → 2 ≤ buf.length) →
      (∀ sid, (execute_handler rc.handler net sid).1 ≠ .panicked) →
      (get_verifier_data reg sel id rc outcome net).result ≠ none) := by
  constructor
  · intro reg sel id rc e outcome net hne henc
    obtain ⟨v, rest, hvs⟩ : ∃ v rest, rc.verifier_contracts = v :: rest := by
      cases h : rc.verifier_contracts with
      | nil => exact absurd h hne
      | cons v rest => exact ⟨v, rest, rfl⟩
    have hc : get_verifier_data_calls reg sel id rc = none := by
      unfold get_verifier_data_calls
      rw [hvs, henc]
      rfl
    unfold get_verifier_data
    rw [hc]
  · intro reg sel id rc f outcome net henc hbuf hnp
    have hc := get_verifier_data_calls_ok reg sel id rc f henc
    cases outcome with
    | err => simp [get_verifier_data, hc]
    | ok buffer =>
      have hlen : 2 ≤ buffer.length := hbuf buffer rfl
      have hx : find_social_id buffer =
          some (find_social_id_aux (buffer.drop 2)) := by
        unfold find_social_id
        rw [if_pos hlen]
      by_cases h0 : find_social_id_aux (buffer.drop 2) = 0
      · simp [get_verifier_data, hc, hx, h0]
      · cases hh : (execute_handler rc.handler net
            (find_social_id_aux (buffer.drop 2))).1 with
        | panicked => exact absurd hh (hnp _)
        | err m => simp [get_verifier_data, hc, hx, h0, hh]
        | ok name => simp [get_verifier_data, hc, hx, h0, hh]

theorem c6_witness :
    get_verifier_data 1 2 42
      ⟨[11], "this-string-is-way-too-long-to-pack-1234", .Static⟩
      .err .transport_error = ⟨false, [], none⟩ ∧
    (get_verifier_data 1 2 42 ⟨[11], "discord", .GetDiscordName⟩
      (.ok [0, 0, 1, 777]) .transport_error).result ≠ none := by
  constructor
  · exact c6_amended_encoding_abort.1 1 2 42
      ⟨[11], "this-string-is-way-too-long-to-pack-1234", .Static⟩
      "StringTooLong" .err .transport_error (by simp) (by rfl)
  · exact c6_amended_encoding_abort.2 1 2 42
      ⟨[11], "discord", .GetDiscordName⟩ 28263441981469284 (.ok [0, 0, 1, 777])
      .transport_error (by rfl)
      (fun buf hb => by injection hb with h; subst h; decide)
      (fun sid => by simp [execute_handler, get_discord_name])

/-- C7: on a successful direct call, a zero presence flag yields
absence whatever the remaining elements are; a non-zero flag yields,
for every buffer, the separator-free in-order concatenation of exactly
the decodable remaining elements, each undecodable element silently
skipped (the witness instantiates the spec's example: three chunks with
an undecodable middle yield first ++ third). -/
theorem c7_unbounded_reader :
    (∀ (field : String) (f : F) (rest : List F),
      cairo_short_string_to_felt field = .ok f →
      get_unbounded_user_data field (.ok (0 :: rest)) = some Option.none) ∧
    (∀ (field : String) (f flag : F) (rest : List F),
      cairo_short_string_to_felt field = .ok f →
      flag ≠ 0 →
      get_unbounded_user_data field (.ok (flag :: rest)) =
        some (some (String.join (rest.filterMap
          (fun v => (parse_cairo_short_string v).toOption))))) := by
  constructor
  · intro field f rest henc
    simp [get_unbounded_user_data, henc]
  · intro field f flag rest henc hflag
    simp [get_unbounded_user_data, henc, hflag]

theorem c7_witness :
    get_unbounded_user_data "avatar" (.ok [0, 24930]) = some Option.none ∧
    get_unbounded_user_data "avatar"
      (.ok [1, 24930, 256 ^ 31, 25444]) = some (some "abcd") := by
  constructor
  · exact c7_unbounded_reader.1 "avatar" 107161069052274 [24930] (by rfl)
  · rw [c7_unbounded_reader.2 "avatar" 107161069052274 1
      [24930, 256 ^ 31, 25444] (by rfl) (by decide)]
    rfl

/-- C10: `get_unbounded_user_data` never fails on a successful direct
call whose buffer has at least one element (the unconditional
`result[0]` presence-flag read is then in bounds), while a successful
call returning an empty buffer panics rather than being treated as
absence. -/
theorem c10_unbounded_nonempty_buffer :
    (∀ (field : String) (f : F) (result : List F),
      cairo_short_string_to_felt field = .ok f →
      1 ≤ result.length →
      ∃ r, get_unbounded_user_data field (.ok result) = some r) ∧
    (∀ (field : String) (f : F),
      cairo_short_string_to_felt field = .ok f →
      get_unbounded_user_data field (.ok []) = none) := by
  constructor
  · intro field f result henc hlen
    obtain ⟨flag, rest, rfl⟩ : ∃ flag rest, result = flag :: rest := by
      cases result with
      | nil => simp at hlen
      | cons flag rest => exact ⟨flag, rest, rfl⟩
    by_cases h0 : flag = 0
    · exact ⟨Option.none, by simp [get_unbounded_user_data, henc, h0]⟩
    · exact ⟨some (String.join
        (rest.filterMap (fun v => (parse_cairo_short_string v).toOption))),
        by simp [get_unbounded_user_data, henc, h0]⟩
  · intro field f henc
    unfold get_unbounded_user_data
    rw [henc]

theorem c10_witness :
    (∃ r, get_unbounded_user_data "avatar" (.ok [1, 24930]) = some r) ∧
    get_unbounded_user_data "avatar" (.ok []) = none := by
  constructor
  · exact c10_unbounded_nonempty_buffer.1 "avatar" 107161069052274
      [1, 24930] (by rfl) (by decide)
  · exact c10_unbounded_nonempty_buffer.2 "avatar" 107161069052274 (by rfl)

/-- C9: for every ASCII string within the 31-byte bound (whose
characters are non-NUL, NUL bytes being indistinguishable from the zero
padding the round trip is stated up to), encoding with
`cairo_short_string_to_felt` and decoding with
`parse_cairo_short_string` yields the original string; every string
exceeding the bound fails to encode. -/
theorem c9_short_string_round_trip :
    (∀ s : String, (∀ c ∈ s.data, 0 < c.toNat ∧ c.toNat < 128) →
      s.length ≤ 31 →
      ∃ n, cairo_short_string_to_felt s = .ok n ∧
        parse_cairo_short_string n = .ok s) ∧
    (∀ s : String, 31 < s.length →
      ∃ e, cairo_short_string_to_felt s = .error e) := by
  constructor
  · intro s hchars hlen
    have hasc : s.data.any (fun c => decide (128 ≤ c.toNat)) = false := by
      rw [List.any_eq_false]
      intro c hc
      simp only [decide_eq_true_eq]
      have := (hchars c hc).2
      omega
    have henc : cairo_short_string_to_felt s =
        .ok (s.data.foldl (fun acc c => acc * 256 + c.toNat) 0) := by
      simp [cairo_short_string_to_felt, hasc, Nat.not_lt.mpr hlen]
    have hvmap : s.data.foldl (fun acc c => acc * 256 + c.toNat) 0 =
        (s.data.map Char.toNat).foldl (fun a b => a * 256 + b) 0 := by
      rw [List.foldl_map]
    have hbytes : ∀ b ∈ s.data.map Char.toNat, b < 256 := by
      intro b hb
      simp only [List.mem_map] at hb
      obtain ⟨c, hc, rfl⟩ := hb
      have := (hchars c hc).2
      omega
    have hbound : s.data.foldl (fun acc c => acc * 256 + c.toNat) 0 <
        256 ^ 31 := by
      rw [hvmap]
      calc (s.data.map Char.toNat).foldl (fun a b => a * 256 + b) 0
          < (0 + 1) * 256 ^ (s.data.map Char.toNat).length :=
            foldl_bound _ hbytes 0
        _ = 256 ^ s.data.length := by simp
        _ ≤ 256 ^ 31 := Nat.pow_le_pow_right (by norm_num) hlen
    refine ⟨_, henc, ?_⟩
    unfold parse_cairo_short_string
    rw [if_pos hbound]
    congr 1
    cases hd : s.data with
    | nil =>
      show String.mk [] = s
      rw [← hd]
    | cons c t =>
      have hc0 : c.toNat ≠ 0 := by
        have := (hchars c (by rw [hd]; simp)).1
        omega
      have hc256 : c.toNat < 256 := by
        have := (hchars c (by rw [hd]; simp)).2
        omega
      have htbytes : ∀ b ∈ t.map Char.toNat, b < 256 := by
        intro b hb
        exact hbytes b (by rw [hd]; simpa using Or.inr hb)
      have hv' : List.foldl (fun acc c => acc * 256 + c.toNat) 0 (c :: t) =
          ((c :: t).map Char.toNat).foldl (fun a b => a * 256 + b) 0 :=
        (List.foldl_map _ _ _ _).symm
      rw [hv']
      simp only [List.map_cons, List.foldl_cons, Nat.zero_mul, Nat.zero_add]
      rw [natToBytes_foldl (t.map Char.toNat) htbytes c.toNat hc0,
        natToBytes_small c.toNat hc0 hc256]
      show String.mk (((c :: t).map Char.toNat).map Char.ofNat) = s
      have hmap : ((c :: t).map Char.toNat).map Char.ofNat = c :: t := by
        rw [List.map_map]
        simp [Function.comp_def, Char.ofNat_toNat]
      rw [hmap, ← hd]
  · intro s hlen
    by_cases h : s.data.any (fun c => decide (128 ≤ c.toNat))
    · exact ⟨"NonAsciiCharacter", by simp [cairo_short_string_to_felt, h]⟩
    · exact ⟨"StringTooLong",
        by simp [cairo_short_string_to_felt, h, hlen]⟩

theorem c9_witness :
    (∃ n, cairo_short_string_to_felt "discord" = .ok n ∧
      parse_cairo_short_string n = .ok "discord") ∧
    (∃ e, cairo_short_string_to_felt
      "this-string-is-way-too-long-to-pack-1234" = .error e) :=
  ⟨c9_short_string_round_trip.1 "discord" (by decide) (by decide),
   c9_short_string_round_trip.2 "this-string-is-way-too-long-to-pack-1234"
     (by decide)⟩

/-- C8: the Static handler returns the exact decimal string
representation of the id (`FieldElement`'s `Display` prints the value
in decimal, `Nat.repr` here), always succeeds, and performs zero
network requests. -/
theorem c8_static_handler :
    ∀ (net : HttpResponse) (id : F),
      execute_handler .Static net id = (.ok (Nat.repr id), 0) := by
  intro net id
  rfl
